import Mathlib

/-!
Shallow embedding of `src/mozilla_linux_pkg_manager/cli.py`
(mozilla-releng/mozilla-deb-pkg-manager).

Python strings that get parsed are modelled as `List Char`; opaque strings
(resource names, URLs) as `String`.  Fallible Python code is modelled in
`Except PyErr`.  External collaborators (the artifact-registry client, the
HTTP transport, `yaml.safe_load`, `mozilla_version.GeckoVersion`,
`datetime.strptime`) are modelled by explicit definitions or environment
fields, each marked in its doc comment.
-/

/-- Python exception classes relevant to `cli.py`, collapsed to the
distinctions the code can observe. -/
inductive PyErr where
  | valueError : PyErr
  | keyError : String → PyErr
  | attributeError : PyErr
  | typeError : PyErr
  | fetchError : Nat → PyErr
deriving DecidableEq

/-- Python `s.split(sep)` for a one-character separator `sep`
(keeps empty fields, result is never empty). -/
def splitOnChar (sep : Char) : List Char → List (List Char)
  | [] => [[]]
  | c :: rest =>
    if c = sep then [] :: splitOnChar sep rest
    else
      match splitOnChar sep rest with
      | [] => [[c]]
      | h :: t => (c :: h) :: t

/-- Python `s.split("\n\n")`: leftmost, non-overlapping occurrences of the
two-character separator. -/
def splitOnNN : List Char → List (List Char)
  | '\n' :: '\n' :: rest => [] :: splitOnNN rest
  | c :: rest =>
    match splitOnNN rest with
    | [] => [[c]]
    | h :: t => (c :: h) :: t
  | [] => [[]]

/-- Python `line.split(": ", 1)`: split at the first occurrence of `": "`;
`none` when the separator does not occur (where Python unpacking would fail). -/
def splitFirstCS : List Char → Option (List Char × List Char)
  | ':' :: ' ' :: rest => some ([], rest)
  | c :: rest =>
    match splitFirstCS rest with
    | some (pre, post) => some (c :: pre, post)
    | none => none
  | [] => none

/-- Python `s.strip()`. -/
def trimWs (cs : List Char) : List Char :=
  ((cs.dropWhile Char.isWhitespace).reverse.dropWhile Char.isWhitespace).reverse

/-- Python `s.split()` (split on whitespace runs, dropping empty fields);
the Release `Architectures` values are space-separated words. -/
def splitWs (cs : List Char) : List (List Char) :=
  (splitOnChar ' ' cs).filter (fun w => w ≠ [])

/-- Numeric value of a digit string (used on digit-only input). -/
def digitsToNat (cs : List Char) : Nat :=
  cs.foldl (fun a c => a * 10 + (c.toNat - 48)) 0

/-- Leading run of digits and the rest; `none` when there is no digit. -/
def readNat (cs : List Char) : Option (Nat × List Char) :=
  let digits := cs.takeWhile Char.isDigit
  if digits = [] then none
  else some (digitsToNat digits, cs.dropWhile Char.isDigit)

/-- Release channel of a Gecko version, per the `mozilla_version` library's
suffix conventions. -/
inductive GeckoReleaseType where
  | nightly : GeckoReleaseType
  | auroraOrDevedition : GeckoReleaseType
  | beta : Nat → GeckoReleaseType
  | esr : GeckoReleaseType
  | release : GeckoReleaseType
deriving DecidableEq

/-- Modelled from the external `mozilla_version.gecko.GeckoVersion`:
the parsed fields this program reads. -/
structure GeckoVersion where
  major : Nat
  minor : Nat
  patch : Option Nat
  releaseType : GeckoReleaseType
deriving DecidableEq

/-- `GeckoVersion.is_nightly`: true exactly for the `a1` channel suffix. -/
def GeckoVersion.is_nightly (v : GeckoVersion) : Bool :=
  match v.releaseType with
  | .nightly => true
  | _ => false

/-- Channel suffix classification of `mozilla_version`:
`a1` nightly, `a2` aurora/devedition, `b<digits>` beta, `esr` esr,
empty suffix release; anything else fails to parse. -/
def parseGeckoSuffix : List Char → Except PyErr GeckoReleaseType
  | [] => .ok .release
  | ['a', '1'] => .ok .nightly
  | ['a', '2'] => .ok .auroraOrDevedition
  | 'b' :: rest =>
    match readNat rest with
    | some (n, []) => .ok (.beta n)
    | _ => .error .valueError
  | ['e', 's', 'r'] => .ok .esr
  | _ => .error .valueError

/-- Modelled from the external `mozilla_version` library:
`GeckoVersion.parse` on the grammar `major.minor(.patch)?` followed by a
channel suffix.  A string that does not match raises (ValueError subclass). -/
def GeckoVersion.parse (cs : List Char) : Except PyErr GeckoVersion :=
  match readNat cs with
  | none => .error .valueError
  | some (maj, rest) =>
    match rest with
    | '.' :: rest2 =>
      match readNat rest2 with
      | none => .error .valueError
      | some (mi, rest3) =>
        match rest3 with
        | '.' :: rest4 =>
          match readNat rest4 with
          | none => .error .valueError
          | some (pa, rest5) =>
            match parseGeckoSuffix rest5 with
            | .error e => .error e
            | .ok rt => .ok { major := maj, minor := mi, patch := some pa, releaseType := rt }
        | _ =>
          match parseGeckoSuffix rest3 with
          | .error e => .error e
          | .ok rt => .ok { major := maj, minor := mi, patch := none, releaseType := rt }
    | _ => .error .valueError

/-- A naive Python `datetime` (whole seconds, proleptic Gregorian). -/
structure PyDateTime where
  year : Nat
  month : Nat
  day : Nat
  hour : Nat
  minute : Nat
  second : Nat
deriving DecidableEq

def isLeapYear (y : Nat) : Bool :=
  y % 4 = 0 && (y % 100 ≠ 0 || y % 400 = 0)

def daysInMonth (y m : Nat) : Nat :=
  if m = 2 then (if isLeapYear y then 29 else 28)
  else if m = 4 ∨ m = 6 ∨ m = 9 ∨ m = 11 then 30
  else 31

/-- Modelled from CPython `datetime.strptime(s, "%Y%m%d%H%M%S")`, restricted
to the canonical 14-digit form used by nightly build ids: 14 digits with
in-range calendar fields parse; anything else raises ValueError. -/
def strptimeYmdHms (cs : List Char) : Except PyErr PyDateTime :=
  if cs.length = 14 ∧ cs.all Char.isDigit then
    let y := digitsToNat (cs.take 4)
    let mo := digitsToNat ((cs.drop 4).take 2)
    let d := digitsToNat ((cs.drop 6).take 2)
    let h := digitsToNat ((cs.drop 8).take 2)
    let mi := digitsToNat ((cs.drop 10).take 2)
    let s := digitsToNat ((cs.drop 12).take 2)
    if 1 ≤ y ∧ 1 ≤ mo ∧ mo ≤ 12 ∧ 1 ≤ d ∧ d ≤ daysInMonth y mo ∧
       h ≤ 23 ∧ mi ≤ 59 ∧ s ≤ 59 then
      .ok { year := y, month := mo, day := d, hour := h, minute := mi, second := s }
    else .error .valueError
  else .error .valueError

/-- Days since the civil epoch of the proleptic Gregorian calendar
(per the standard days-from-civil algorithm, valid for year ≥ 1);
models Python `datetime.toordinal` up to a constant offset, which cancels
in subtraction. -/
def daysFromCivil (y m d : Nat) : Nat :=
  let yAdj := if m ≤ 2 then y - 1 else y
  let era := yAdj / 400
  let yoe := yAdj % 400
  let mp := if m ≤ 2 then m + 9 else m - 3
  let doy := (153 * mp + 2) / 5 + (d - 1)
  let doe := yoe * 365 + yoe / 4 - yoe / 100 + doy
  era * 146097 + doe

def PyDateTime.toSecs (t : PyDateTime) : Nat :=
  daysFromCivil t.year t.month t.day * 86400 +
    t.hour * 3600 + t.minute * 60 + t.second

/-- Python `datetime` subtraction, as a signed number of seconds
(the resulting `timedelta`, whose comparisons are by total duration). -/
def dtSub (a b : PyDateTime) : Int :=
  (a.toSecs : Int) - (b.toSecs : Int)

/-- `now - build_date > timedelta(days=retention_days)` from
`delete_nightly_versions` (cli.py line 117). -/
def isExpired (now : PyDateTime) (retentionDays : Int) (buildDate : PyDateTime) : Bool :=
  retentionDays * 86400 < dtSub now buildDate

/-- A value stored in the per-package dict built by `parse_key_value_block`:
field text, a parsed `GeckoVersion`, or a parsed `datetime`. -/
inductive PyValue where
  | str : String → PyValue
  | gecko : GeckoVersion → PyValue
  | date : PyDateTime → PyValue
deriving DecidableEq

/-- The Python dict `package`, as an insertion-ordered association list. -/
abbrev PyDict := List (String × PyValue)

/-- Python dict assignment `d[k] = v` (overwrite in place, else append). -/
def dictSet (d : PyDict) (k : String) (v : PyValue) : PyDict :=
  match d with
  | [] => [(k, v)]
  | (k2, v2) :: rest => if k2 = k then (k2, v) :: rest else (k2, v2) :: dictSet rest k v

/-- Python dict subscript `d[k]`: KeyError when absent. -/
def dictGet (d : PyDict) (k : String) : Except PyErr PyValue :=
  match d with
  | [] => .error (.keyError k)
  | (k2, v) :: rest => if k2 = k then .ok v else dictGet rest k

/-- `version, postfix = value.split("~")` (cli.py line 75): Python splits on
every `~` and unpacking into two names raises ValueError unless the split
has exactly two parts. -/
def splitTilde (value : List Char) : Except PyErr (List Char × List Char) :=
  match splitOnChar '~' value with
  | [v, p] => .ok (v, p)
  | _ => .error .valueError

/-- One iteration of the `for line in block.split("\n")` loop of
`parse_key_value_block` (cli.py lines 70-83). -/
def parseBlockLine (pkg : PyDict) (line : List Char) : Except PyErr PyDict :=
  if line = [] then .ok pkg
  else
    match splitFirstCS line with
    | none => .error .valueError
    | some (key, value) =>
      let pkg1 := dictSet pkg (String.mk (trimWs key)) (.str (String.mk (trimWs value)))
      if key = "Version".toList then
        match splitTilde value with
        | .error e => .error e
        | .ok (version, post) =>
          match GeckoVersion.parse version with
          | .error e => .error e
          | .ok gv =>
            let pkg2 := dictSet pkg1 "Gecko-Version" (.gecko gv)
            if gv.is_nightly then
              let pkg3 := dictSet pkg2 "Build-ID" (.str (String.mk post))
              match strptimeYmdHms post with
              | .error e => .error e
              | .ok d => .ok (dictSet pkg3 "Moz-Build-Date" (.date d))
            else
              .ok (dictSet pkg2 "Build-Number" (.str (String.mk (post.drop 5))))
      else .ok pkg1

def parseBlockLines (pkg : PyDict) : List (List Char) → Except PyErr PyDict
  | [] => .ok pkg
  | line :: rest =>
    match parseBlockLine pkg line with
    | .error e => .error e
    | .ok pkg2 => parseBlockLines pkg2 rest

/-- `parse_key_value_block(block, args)` (cli.py lines 68-84); the `args`
parameter is unused by the Python body and omitted. -/
def parse_key_value_block (block : List Char) : Except PyErr PyDict :=
  parseBlockLines [] (splitOnChar '\n' block)

/-- Generic first-error list traversal: models a Python list comprehension
`[f(x) for x in l]` whose body may raise. -/
def mapE {α β : Type} (f : α → Except PyErr β) : List α → Except PyErr (List β)
  | [] => .ok []
  | x :: xs =>
    match f x with
    | .error e => .error e
    | .ok y =>
      match mapE f xs with
      | .error e => .error e
      | .ok ys => .ok (y :: ys)

/-- Generic first-error list filter: models a Python list comprehension
`[x for x in l if p(x)]` whose predicate may raise. -/
def filterE {α : Type} (p : α → Except PyErr Bool) : List α → Except PyErr (List α)
  | [] => .ok []
  | x :: xs =>
    match p x with
    | .error e => .error e
    | .ok b =>
      match filterE p xs with
      | .error e => .error e
      | .ok rest => .ok (if b then x :: rest else rest)

/-- Per-architecture Packages processing (cli.py lines 105-108):
split on blank-line boundaries and parse every resulting block. -/
def processPackagesDoc (doc : String) : Except PyErr (List PyDict) :=
  mapE parse_key_value_block (splitOnNN doc.toList)

/-- `package["Gecko-Version"].is_nightly` on one record (cli.py line 111):
KeyError when the key is absent, AttributeError when the stored value is not
a `GeckoVersion`. -/
def recIsNightly (p : PyDict) : Except PyErr Bool :=
  match dictGet p "Gecko-Version" with
  | .ok (.gecko g) => .ok g.is_nightly
  | .ok _ => .error .attributeError
  | .error e => .error e

/-- The nightly filter (cli.py lines 110-112). -/
def filterNightly : List PyDict → Except PyErr (List PyDict) :=
  filterE recIsNightly

/-- `package["Moz-Build-Date"]` as a datetime (cli.py line 117):
KeyError when absent, TypeError when the value is not a datetime
(Python would fail the subtraction). -/
def getBuildDate (p : PyDict) : Except PyErr PyDateTime :=
  match dictGet p "Moz-Build-Date" with
  | .ok (.date d) => .ok d
  | .ok _ => .error .typeError
  | .error e => .error e

/-- The expiry predicate applied per record (cli.py line 117). -/
def expiredPred (now : PyDateTime) (ret : Int) (p : PyDict) : Except PyErr Bool :=
  match getBuildDate p with
  | .error e => .error e
  | .ok d => .ok (isExpired now ret d)

/-- The expired filter (cli.py lines 114-118), with `now` captured once. -/
def filterExpired (now : PyDateTime) (ret : Int) : List PyDict → Except PyErr (List PyDict) :=
  filterE (expiredPred now ret)

/-- `batched(iterable, n)` (cli.py lines 46-55) produces these chunks when
`n ≥ 1`; accumulator-based so that it is structural. `k` is the remaining
capacity of the current batch, `acc` the current batch reversed. -/
def chunksGo {α : Type} (n : Nat) : Nat → List α → List α → List (List α)
  | _, acc, [] => if acc.isEmpty then [] else [acc.reverse]
  | 0, acc, x :: xs => acc.reverse :: chunksGo n (n - 1) [x] xs
  | k + 1, acc, x :: xs => chunksGo n k (x :: acc) xs

def chunks {α : Type} (n : Nat) (l : List α) : List (List α) :=
  chunksGo n n [] l

/-- `batched(iterable, n)` (cli.py lines 46-55): raises ValueError when
`n < 1`, otherwise yields the batches in order, the last possibly short. -/
def batched {α : Type} (l : List α) (n : Nat) : Except PyErr (List (List α)) :=
  if n < 1 then .error .valueError else .ok (chunks n l)

/-- State of the artifact registry visible to this program: which version
batches have actually been deleted. -/
structure RegistryState where
  deleted : List (List String)
deriving DecidableEq

/-- A `BatchDeleteVersionsRequest` submitted to the registry client.  The
Python code builds the request with `names=versions` only, so the proto's
`validate_only` field keeps its default `False` whenever a request is
actually submitted. -/
structure DeleteRequest where
  names : List String
  validateOnly : Bool
deriving DecidableEq

/-- Observable effects on the external registry client: its state and the
requests submitted through `client.batch_delete_versions`. -/
structure Effects where
  registry : RegistryState
  requests : List DeleteRequest
deriving DecidableEq

/-- Value returned by `batch_delete_versions`: the server operation result
(opaque) in the real-deletion branch, or the input list echoed back in the
dry-run branch. -/
inductive BatchDeleteResult where
  | response : BatchDeleteResult
  | echoed : List String → BatchDeleteResult
deriving DecidableEq

/-- `batch_delete_versions(versions, dry_run)` (cli.py lines 21-33).
When `dry_run` is false it submits the request (with `validate_only` left at
its default `False`) and the registry deletes the batch; when `dry_run` is
true it only logs (logging is external to this model) and returns the list. -/
def batch_delete_versions (eff : Effects) (versions : List String) (dry_run : Bool) :
    Effects × BatchDeleteResult :=
  if dry_run then (eff, .echoed versions)
  else
    ({ registry := { deleted := eff.registry.deleted ++ [versions] },
       requests := eff.requests ++ [{ names := versions, validateOnly := false }] },
     .response)

/-- The `for batch in batches` loop (cli.py lines 129-130), which passes the
literal `True` as `dry_run`. -/
def runBatches (eff : Effects) : List (List String) → Effects
  | [] => eff
  | b :: bs => runBatches (batch_delete_versions eff b true).1 bs

/-- Modelled from: `yaml.safe_load` (external library) applied to the flat
`Key: value` Release document, followed by `["Architectures"].split()`
(cli.py lines 93-95).  A document without an `Architectures` entry raises
KeyError, as the Python subscript would. -/
def yamlArchitectures (raw : String) : Except PyErr (List String) :=
  let entries := (splitOnChar '\n' raw.toList).filterMap (fun line =>
    match splitFirstCS line with
    | some (k, v) => some (trimWs k, trimWs v)
    | none => none)
  match entries.lookup "Architectures".toList with
  | some v => .ok ((splitWs v).map (fun w => String.mk w))
  | none => .error (.keyError "Architectures")

/-- The constant base URL of cli.py line 88, normalized with a trailing
slash (line 89; the constant has none, so the slash is appended). -/
def baseUrl : String := "https://packages.mozilla.org/apt/dists/mozilla/"

/-- `urljoin(normalized_url, "Release")` (cli.py line 90). -/
def releaseUrl : String := baseUrl ++ "Release"

/-- Per-architecture Packages URL (cli.py line 98). -/
def packagesUrl (arch : String) : String :=
  baseUrl ++ "main/binary-" ++ arch ++ "/Packages"

/-- Resource scope `projects/{project}/locations/{region}/repositories/{repo}`
(cli.py lines 38 and 123). -/
def repoScope (project region repository : String) : String :=
  "projects/" ++ project ++ "/locations/" ++ region ++ "/repositories/" ++ repository

/-- Python `str()` of a stored dict value, as used inside the target f-string;
total, like Python stringification. -/
def geckoSuffixStr : GeckoReleaseType → String
  | .nightly => "a1"
  | .auroraOrDevedition => "a2"
  | .beta n => "b" ++ toString n
  | .esr => "esr"
  | .release => ""

def pyStr : PyValue → String
  | .str s => s
  | .gecko g =>
    toString g.major ++ "." ++ toString g.minor ++
      (match g.patch with
       | some p => "." ++ toString p
       | none => "") ++ geckoSuffixStr g.releaseType
  | .date t =>
    toString t.year ++ "-" ++ toString t.month ++ "-" ++ toString t.day ++ " " ++
      toString t.hour ++ ":" ++ toString t.minute ++ ":" ++ toString t.second

/-- One fully-qualified deletable version name (cli.py lines 122-125). -/
def mkTarget (project region repository pkg ver : String) : String :=
  repoScope project region repository ++ "/packages/" ++ pkg ++ "/versions/" ++ ver

/-- The `clean-up` arguments this function reads (`--dry-run` is parsed by
the CLI but never read inside `delete_nightly_versions`). -/
structure Args where
  region : String
  repository : String
  retention_days : Int
  dry_run : Bool

/-- External collaborators of one run: the project id from the environment,
the HTTP transport (`fetch_url`, keyed by URL), the registry repository
lookup (`get_cloud_repo`, keyed by scope), and the run timestamp
`datetime.now()` captured once (cli.py line 113). -/
structure PipelineEnv where
  project : String
  fetch : String → Except PyErr String
  getRepo : String → Except PyErr Unit
  now : PyDateTime

/-- The target list comprehension (cli.py lines 122-125); each subscript can
raise KeyError. -/
def mkTargets (env : PipelineEnv) (args : Args) (expired : List PyDict) :
    Except PyErr (List String) :=
  mapE (fun p =>
    match dictGet p "Package" with
    | .error e => .error e
    | .ok pk =>
      match dictGet p "Version" with
      | .error e => .error e
      | .ok ver =>
        .ok (mkTarget env.project args.region args.repository (pyStr pk) (pyStr ver)))
    expired

/-- The body of the `try` block of `delete_nightly_versions`
(cli.py lines 91-130), with every awaited external call drawn from `env`. -/
def delete_nightly_pipeline (env : PipelineEnv) (args : Args) (eff : Effects) :
    Except PyErr Effects :=
  match env.fetch releaseUrl with
  | .error e => .error e
  | .ok rawRelease =>
    match yamlArchitectures rawRelease with
    | .error e => .error e
    | .ok archs =>
      match mapE (fun arch => env.fetch (packagesUrl arch)) archs with
      | .error e => .error e
      | .ok docs =>
        match mapE processPackagesDoc docs with
        | .error e => .error e
        | .ok parsed =>
          match filterNightly parsed.flatten with
          | .error e => .error e
          | .ok nightly =>
            match filterExpired env.now args.retention_days nightly with
            | .error e => .error e
            | .ok expired =>
              match mkTargets env args expired with
              | .error e => .error e
              | .ok targets =>
                match env.getRepo (repoScope env.project args.region args.repository) with
                | .error e => .error e
                | .ok _ =>
                  match batched targets 10000 with
                  | .error e => .error e
                  | .ok batches => .ok (runBatches eff batches)

/-- Outcome of calling a Python function: normal return or escaped exception. -/
inductive PyOutcome (α : Type) where
  | returned : α → PyOutcome α
  | raised : PyErr → PyOutcome α
deriving DecidableEq

/-- `delete_nightly_versions(args)` (cli.py lines 87-132): the whole body
runs inside `try ... except Exception`, whose handler logs the error
(logging is external to this model) and falls off the end of the function. -/
def delete_nightly_versions (env : PipelineEnv) (args : Args) (eff : Effects) :
    PyOutcome Effects :=
  match delete_nightly_pipeline env args eff with
  | .ok effOut => .returned effOut
  | .error _ => .returned eff

/-- Modelled from the spec: the error taxonomy seen by the retry classifier
of §4.1, which is absent from the source file (only the spec defines it):
transient transport kinds, protocol status codes, wrapper errors carrying a
wrapped cause, and everything else. -/
inductive RetryError where
  | connectionReset : RetryError
  | timeout : RetryError
  | chunkedEncoding : RetryError
  | httpStatus : Nat → RetryError
  | wrapped : RetryError → RetryError
  | otherError : String → RetryError
deriving DecidableEq

/-- Modelled from the spec: the fixed transient server-side status classes. -/
def transientStatusCodes : List Nat := [429, 500, 502, 503, 504]

/-- Modelled from the spec: the supplemental status allow-list. -/
def supplementalStatusCodes : List Nat := [408]

/-- Modelled from the spec: `should_retry(error)` of §4.1 — true on the fixed
transient transport kinds and status sets, recursing through wrapper errors,
false otherwise. -/
def should_retry : RetryError → Bool
  | .connectionReset => true
  | .timeout => true
  | .chunkedEncoding => true
  | .httpStatus c => transientStatusCodes.contains c || supplementalStatusCodes.contains c
  | .wrapped e => should_retry e
  | .otherError _ => false

/-- Modelled from the spec: "Split once on the first `~`" (§4.2) — the
split-once reading of the Version grammar, for comparison with the source's
`value.split("~")`. -/
def splitOnFirstTildeSpec : List Char → Option (List Char × List Char)
  | '~' :: rest => some ([], rest)
  | c :: rest =>
    match splitOnFirstTildeSpec rest with
    | some (pre, post) => some (c :: pre, post)
    | none => none
  | [] => none

def isErrE {α : Type} : Except PyErr α → Bool
  | .error _ => true
  | .ok _ => false

def isOkE {α : Type} : Except PyErr α → Bool
  | .error _ => false
  | .ok _ => true

def okPart {α : Type} : Except PyErr α → Option α
  | .ok a => some a
  | .error _ => none

deriving instance DecidableEq for Except

theorem bdv_dry_fst (eff : Effects) (b : List String) :
    (batch_delete_versions eff b true).1 = eff := rfl

theorem runBatches_id (bs : List (List String)) :
    ∀ eff : Effects, runBatches eff bs = eff := by
  induction bs with
  | nil => intro eff; rfl
  | cons b bs ih =>
    intro eff
    show runBatches (batch_delete_versions eff b true).1 bs = eff
    rw [bdv_dry_fst]
    exact ih eff

theorem pipeline_self (env : PipelineEnv) (args : Args) (eff : Effects) :
    delete_nightly_pipeline env args eff = .ok eff ∨
      ∃ e, delete_nightly_pipeline env args eff = .error e := by
  unfold delete_nightly_pipeline
  repeat' split
  all_goals first
    | (left; rw [runBatches_id])
    | (right; exact ⟨_, rfl⟩)

theorem dnv_self (env : PipelineEnv) (args : Args) (eff : Effects) :
    delete_nightly_versions env args eff = .returned eff := by
  unfold delete_nightly_versions
  rcases pipeline_self env args eff with h | ⟨e, h⟩ <;> rw [h]

/-- C1: every invocation of `delete_nightly_versions` — for any arguments
(including runs without `--dry-run`), any transport results and any registry
state — calls `batch_delete_versions` with `dry_run` fixed to `True`
(cli.py line 130), under which no deletion is performed and no request is
submitted: the registry state and the submitted-request log are unchanged. -/
theorem spec_C1 (env : PipelineEnv) (args : Args) (eff : Effects) :
    ∃ effOut, delete_nightly_versions env args eff = PyOutcome.returned effOut ∧
      effOut.registry.deleted = eff.registry.deleted ∧
      effOut.requests = eff.requests :=
  ⟨eff, dnv_self env args eff, rfl, rfl⟩

/-- C2: running the executor with `dry_run = true` leaves every request it
submits (there are none: the dry-run branch returns before the client call)
with `validate_only = true` vacuously, deletes nothing from the registry,
and reports the input list back rather than any completed deletion. -/
theorem spec_C2 (eff : Effects) (versions : List String) :
    (∀ r, r ∈ (batch_delete_versions eff versions true).1.requests.drop eff.requests.length →
        r.validateOnly = true) ∧
    (batch_delete_versions eff versions true).1.registry.deleted = eff.registry.deleted ∧
    (batch_delete_versions eff versions true).2 = .echoed versions := by
  refine ⟨?_, rfl, rfl⟩
  intro r hr
  rw [bdv_dry_fst] at hr
  simp at hr

/-- Closed instance of C2 at a concrete registry state and target list. -/
theorem spec_C2_witness :
    (batch_delete_versions ⟨⟨[]⟩, []⟩ ["pkg/versions/v1"] true).2 =
      .echoed ["pkg/versions/v1"] :=
  (spec_C2 ⟨⟨[]⟩, []⟩ ["pkg/versions/v1"]).2.2

/-- A pipeline environment whose Release fetch fails, to exhibit C10's
handler on a concrete failing run. -/
def envFail : PipelineEnv :=
  { project := "p"
    fetch := fun _ => .error (.fetchError 500)
    getRepo := fun _ => .ok ()
    now := ⟨2024, 2, 14, 10, 30, 0⟩ }

def argsEx : Args :=
  { region := "us", repository := "mozilla", retention_days := 30, dry_run := false }

/-- C10: `delete_nightly_versions` never propagates an exception: whatever
the external fetches, parses, lookups or deletions do, the run-wide
`except Exception` handler (cli.py lines 131-132) absorbs the error and the
function returns normally — shown for every environment, and concretely for
a run whose manifest fetch fails. -/
theorem spec_C10 :
    (∀ (env : PipelineEnv) (args : Args) (eff : Effects),
       ∃ effOut, delete_nightly_versions env args eff = PyOutcome.returned effOut) ∧
    delete_nightly_versions envFail argsEx ⟨⟨[]⟩, []⟩ = PyOutcome.returned ⟨⟨[]⟩, []⟩ :=
  ⟨fun env args eff => ⟨eff, dnv_self env args eff⟩, rfl⟩

theorem chunksGo_flatten {α : Type} (n : Nat) (xs : List α) :
    ∀ (k : Nat) (acc : List α), (chunksGo n k acc xs).flatten = acc.reverse ++ xs := by
  induction xs with
  | nil =>
    intro k acc
    cases acc with
    | nil => simp [chunksGo]
    | cons a as => simp [chunksGo]
  | cons x xs ih =>
    intro k acc
    cases k with
    | zero => simp [chunksGo, ih]
    | succ k => simp [chunksGo, ih]

theorem chunksGo_le {α : Type} (n : Nat) (hn : 1 ≤ n) (xs : List α) :
    ∀ (k : Nat) (acc : List α), acc.length + k = n →
      ∀ b, b ∈ chunksGo n k acc xs → b.length ≤ n := by
  induction xs with
  | nil =>
    intro k acc hacc b hb
    cases acc with
    | nil => simp [chunksGo] at hb
    | cons a as =>
      rw [show chunksGo n k (a :: as) ([] : List α) = [(a :: as).reverse] from by
        simp [chunksGo]] at hb
      rcases List.mem_singleton.mp hb with rfl
      simp only [List.length_reverse, List.length_cons]
      simp only [List.length_cons] at hacc
      omega
  | cons x xs ih =>
    intro k acc hacc b hb
    cases k with
    | zero =>
      rw [show chunksGo n 0 acc (x :: xs) = acc.reverse :: chunksGo n (n - 1) [x] xs from rfl] at hb
      rcases List.mem_cons.mp hb with hb | hb
      · subst hb
        simp only [List.length_reverse]
        omega
      · exact ih (n - 1) [x] (by simp; omega) b hb
    | succ k =>
      exact ih k (x :: acc) (by simp only [List.length_cons]; omega) b hb

theorem chunksGo_dropLast {α : Type} (n : Nat) (hn : 1 ≤ n) (xs : List α) :
    ∀ (k : Nat) (acc : List α), acc.length + k = n →
      ∀ b, b ∈ (chunksGo n k acc xs).dropLast → b.length = n := by
  induction xs with
  | nil =>
    intro k acc hacc b hb
    cases acc with
    | nil => simp [chunksGo] at hb
    | cons a as => simp [chunksGo] at hb
  | cons x xs ih =>
    intro k acc hacc b hb
    cases k with
    | zero =>
      rw [show chunksGo n 0 acc (x :: xs) = acc.reverse :: chunksGo n (n - 1) [x] xs from rfl] at hb
      cases hr : chunksGo n (n - 1) ([x] : List α) xs with
      | nil => rw [hr] at hb; simp at hb
      | cons r rs =>
        rw [hr] at hb
        rw [show (acc.reverse :: r :: rs).dropLast = acc.reverse :: (r :: rs).dropLast from rfl] at hb
        rcases List.mem_cons.mp hb with hb | hb
        · subst hb
          simp only [List.length_reverse]
          omega
        · rw [← hr] at hb
          exact ih (n - 1) [x] (by simp; omega) b hb
    | succ k =>
      exact ih k (x :: acc) (by simp only [List.length_cons]; omega) b hb

/-- C6: batching is an order-preserving exact partition — for every input
list and every `batch_size ≥ 1`, `batched` yields batches of at most `n`
elements whose concatenation is the input (each target covered exactly once,
in order), with every batch but the last of size exactly `n`; concretely,
125 targets at batch size 50 give sizes [50, 50, 25]. -/
theorem spec_C6 :
    (∀ (α : Type) (l : List α) (n : Nat), 1 ≤ n → ∀ bs, batched l n = .ok bs →
       (∀ b, b ∈ bs → b.length ≤ n) ∧ bs.flatten = l ∧
       (∀ b, b ∈ bs.dropLast → b.length = n)) ∧
    (okPart (batched (List.range 125) 50)).map (fun bs => bs.map List.length) =
      some [50, 50, 25] ∧
    (okPart (batched (List.range 125) 50)).map (fun bs => bs.flatten) =
      some (List.range 125) := by
  refine ⟨?_, rfl, rfl⟩
  intro α l n hn bs hbs
  unfold batched at hbs
  rw [if_neg (by omega)] at hbs
  injection hbs with hbs
  subst hbs
  refine ⟨?_, ?_, ?_⟩
  · exact fun b hb => chunksGo_le n hn l n [] (by simp) b hb
  · simpa using chunksGo_flatten n l n []
  · exact fun b hb => chunksGo_dropLast n hn l n [] (by simp) b hb

/-- Closed instance of C6: the batches of 125 targets at size 50 concatenate
back to the input, via `spec_C6` at that input. -/
theorem spec_C6_witness : (chunks 50 (List.range 125)).flatten = List.range 125 :=
  (spec_C6.1 Nat (List.range 125) 50 (by decide) (chunks 50 (List.range 125)) rfl).2.1

theorem filterE_ok_mem_iff {α : Type} (p : α → Except PyErr Bool) :
    ∀ (l res : List α), filterE p l = .ok res →
      ∀ r, r ∈ res ↔ (r ∈ l ∧ p r = .ok true) := by
  intro l
  induction l with
  | nil =>
    intro res h r
    unfold filterE at h
    injection h with h
    subst h
    simp
  | cons x xs ih =>
    intro res h r
    unfold filterE at h
    cases hx : p x with
    | error e => rw [hx] at h; simp at h
    | ok b =>
      rw [hx] at h
      cases hxs : filterE p xs with
      | error e => rw [hxs] at h; simp at h
      | ok rest =>
        rw [hxs] at h
        simp only [] at h
        injection h with h
        subst h
        have ihr := ih rest hxs r
        cases b with
        | true =>
          rw [if_pos rfl]
          constructor
          · intro hmem
            rcases List.mem_cons.mp hmem with rfl | hmem
            · exact ⟨List.mem_cons_self _ _, hx⟩
            · obtain ⟨h1, h2⟩ := ihr.mp hmem
              exact ⟨List.mem_cons_of_mem _ h1, h2⟩
          · rintro ⟨hmem, hp⟩
            rcases List.mem_cons.mp hmem with rfl | hmem
            · exact List.mem_cons_self _ _
            · exact List.mem_cons_of_mem _ (ihr.mpr ⟨hmem, hp⟩)
        | false =>
          rw [if_neg (by simp)]
          constructor
          · intro hmem
            obtain ⟨h1, h2⟩ := ihr.mp hmem
            exact ⟨List.mem_cons_of_mem _ h1, h2⟩
          · rintro ⟨hmem, hp⟩
            rcases List.mem_cons.mp hmem with rfl | hmem
            · rw [hx] at hp
              injection hp with hp
              cases hp
            · exact ihr.mpr ⟨hmem, hp⟩

theorem expiredPred_ok_true_iff (now : PyDateTime) (ret : Int) (r : PyDict) :
    expiredPred now ret r = .ok true ↔
      ∃ d, getBuildDate r = .ok d ∧ isExpired now ret d = true := by
  unfold expiredPred
  split <;> rename_i heq <;> simp [heq]

/-- C4: expiry is the strict comparison `now - build_timestamp >
retention_days` against the single `now` the pipeline captures (cli.py line
113; the model takes it once from the environment): a nightly record is in
the expired selection iff its build date satisfies the strict inequality,
and at `retention_days = 30` a record exactly 30 days old is not expired
while one 30 days and 1 second old is. -/
theorem spec_C4 :
    (∀ (now : PyDateTime) (ret : Int) (l res : List PyDict),
       filterExpired now ret l = .ok res →
       ∀ r, r ∈ res ↔
         (r ∈ l ∧ ∃ d, getBuildDate r = .ok d ∧ isExpired now ret d = true)) ∧
    (∀ (now d : PyDateTime), dtSub now d = 30 * 86400 → isExpired now 30 d = false) ∧
    (∀ (now d : PyDateTime), dtSub now d = 30 * 86400 + 1 → isExpired now 30 d = true) := by
  refine ⟨?_, ?_, ?_⟩
  · intro now ret l res h r
    rw [filterE_ok_mem_iff (expiredPred now ret) l res h r]
    exact and_congr_right (fun _ => expiredPred_ok_true_iff now ret r)
  · intro now d h
    have hlt : ¬ ((30 : Int) * 86400 < dtSub now d) := by omega
    unfold isExpired
    exact decide_eq_false hlt
  · intro now d h
    have hlt : (30 : Int) * 86400 < dtSub now d := by omega
    unfold isExpired
    exact decide_eq_true hlt

/-- Closed instance of C4 at the boundary: 2024-02-14 10:30:00 versus builds
of 2024-01-15 10:30:00 (exactly 30 days, kept) and 2024-01-15 10:29:59
(30 days and 1 second, expired), via `spec_C4`. -/
theorem spec_C4_witness :
    isExpired ⟨2024, 2, 14, 10, 30, 0⟩ 30 ⟨2024, 1, 15, 10, 30, 0⟩ = false ∧
    isExpired ⟨2024, 2, 14, 10, 30, 0⟩ 30 ⟨2024, 1, 15, 10, 29, 59⟩ = true :=
  ⟨spec_C4.2.1 _ _ (by decide), spec_C4.2.2 _ _ (by decide)⟩

/-- C9: the retry classifier returns true on every fixed transient transport
kind, on the fixed status set 429/500/502/503/504 plus the supplemental 408,
and on a wrapper whose wrapped cause is transient; it returns false on every
other error (non-listed status codes, unrelated error kinds, and wrappers of
non-transient causes). -/
theorem spec_C9 :
    should_retry .connectionReset = true ∧
    should_retry .timeout = true ∧
    should_retry .chunkedEncoding = true ∧
    (∀ c, c ∈ transientStatusCodes ++ supplementalStatusCodes →
       should_retry (.httpStatus c) = true) ∧
    (∀ e, should_retry e = true → should_retry (.wrapped e) = true) ∧
    (∀ c, c ∉ transientStatusCodes ++ supplementalStatusCodes →
       should_retry (.httpStatus c) = false) ∧
    (∀ t, should_retry (.otherError t) = false) ∧
    (∀ e, should_retry e = false → should_retry (.wrapped e) = false) := by
  refine ⟨rfl, rfl, rfl, ?_, ?_, ?_, ?_, ?_⟩
  · intro c hc
    simp only [transientStatusCodes, supplementalStatusCodes, List.mem_append,
      List.mem_cons, List.not_mem_nil, or_false] at hc
    unfold should_retry
    rcases hc with (rfl | rfl | rfl | rfl | rfl) | rfl <;> rfl
  · intro e he
    unfold should_retry
    exact he
  · intro c hc
    unfold should_retry
    cases hcon : (transientStatusCodes.contains c || supplementalStatusCodes.contains c) with
    | false => rfl
    | true =>
      exfalso
      rw [Bool.or_eq_true] at hcon
      rcases hcon with h2 | h2
      · exact hc (List.mem_append_left _ (List.mem_of_elem_eq_true h2))
      · exact hc (List.mem_append_right _ (List.mem_of_elem_eq_true h2))
  · intro t
    rfl
  · intro e he
    unfold should_retry
    exact he

/-- Closed instance of C9: a wrapped timeout and status 408 are retried,
status 404 is not, via `spec_C9`. -/
theorem spec_C9_witness :
    should_retry (RetryError.wrapped .timeout) = true ∧
    should_retry (RetryError.httpStatus 408) = true ∧
    should_retry (RetryError.httpStatus 404) = false :=
  ⟨spec_C9.2.2.2.2.1 .timeout rfl,
   spec_C9.2.2.2.1 408 (by decide),
   spec_C9.2.2.2.2.2.1 404 (by decide)⟩

theorem mapE_err_of_mem {α β : Type} (f : α → Except PyErr β) :
    ∀ (l : List α) (a : α), a ∈ l → isErrE (f a) = true → isErrE (mapE f l) = true := by
  intro l
  induction l with
  | nil => intro a ha; simp at ha
  | cons x xs ih =>
    intro a ha hfa
    rcases List.mem_cons.mp ha with rfl | ha
    · unfold mapE
      split
      · rfl
      · next y heq => rw [heq] at hfa; simp [isErrE] at hfa
    · unfold mapE
      split
      · rfl
      · next y heq =>
        cases hxs : mapE f xs with
        | error e => rfl
        | ok ys =>
          have h2 := ih a ha hfa
          rw [hxs] at h2
          simp [isErrE] at h2

/-- The two-block Packages text of C3: one well-formed nightly block and one
block whose nightly postfix contains a non-digit. -/
def doc3 : String :=
  "Package: firefox-nightly\nVersion: 120.0a1~20240115103000\n\nPackage: firefox-nightly\nVersion: 120.0a1~2024011510300x"

def badBlock3 : List Char :=
  "Package: firefox-nightly\nVersion: 120.0a1~2024011510300x".toList

/-- C3 counterexample: on a Packages text with one well-formed block and one
block with a non-numeric nightly postfix, processing the document does not
yield one record plus one recorded failure — the strptime ValueError
propagates out of the parsing list comprehension and the whole document
yields an error, with zero records. -/
theorem spec_C3_cex : processPackagesDoc doc3 = .error .valueError := rfl

/-- C3 (amended): a malformed nightly postfix in any control block fails the
processing of that architecture's entire Packages document (the error then
reaches the run-wide handler, cli.py lines 131-132): whenever any block of
the split document parses to an error, the whole document's processing is an
error and no record list is produced; there is no per-block failure
recording. -/
theorem spec_C3 (doc : String) (b : List Char)
    (hmem : b ∈ splitOnNN doc.toList)
    (hbad : isErrE (parse_key_value_block b) = true) :
    isErrE (processPackagesDoc doc) = true :=
  mapE_err_of_mem parse_key_value_block (splitOnNN doc.toList) b hmem hbad

/-- Closed instance of C3 at `doc3`, via `spec_C3`. -/
theorem spec_C3_witness : isErrE (processPackagesDoc doc3) = true :=
  spec_C3 doc3 badBlock3 (by decide) rfl

/-- Field access on a parse result (the record's dict subscript, lifted over
the parse outcome). -/
def fieldOf (r : Except PyErr PyDict) (k : String) : Except PyErr PyValue :=
  match r with
  | .error e => .error e
  | .ok d => dictGet d k

def blockC5 : List Char := "Package: firefox\nVersion: 120.0~20240115103000".toList

def blockC5n : List Char := "Package: firefox\nVersion: 120.0a1~20240115103000".toList

def blockB3 : List Char := "Package: firefox\nVersion: 120.0~build3".toList

/-- C5 counterexample: on a block with Version `120.0~20240115103000` the
code yields build number "115103000" and no build timestamp, because
`GeckoVersion` classifies `120.0` (no `a1` suffix) as a release version and
the non-nightly branch slices the postfix after "build" — not the claimed
timestamp 2024-01-15 10:30:00 with no build number. -/
theorem spec_C5_cex :
    fieldOf (parse_key_value_block blockC5) "Build-Number" = .ok (.str "115103000") ∧
    fieldOf (parse_key_value_block blockC5) "Moz-Build-Date" =
      .error (.keyError "Moz-Build-Date") :=
  ⟨rfl, rfl⟩

/-- C5 (amended): a nightly-channel upstream version carries the `a1`
suffix: Version `120.0a1~20240115103000` yields build timestamp
2024-01-15 10:30:00 and no build number, while the non-nightly
`120.0~build3` yields build number 3 and no build timestamp. -/
theorem spec_C5 :
    fieldOf (parse_key_value_block blockC5n) "Moz-Build-Date" =
      .ok (.date ⟨2024, 1, 15, 10, 30, 0⟩) ∧
    fieldOf (parse_key_value_block blockC5n) "Build-Number" =
      .error (.keyError "Build-Number") ∧
    fieldOf (parse_key_value_block blockB3) "Build-Number" = .ok (.str "3") ∧
    fieldOf (parse_key_value_block blockB3) "Moz-Build-Date" =
      .error (.keyError "Moz-Build-Date") :=
  ⟨rfl, rfl, rfl, rfl⟩

theorem splitOnChar_of_not_mem (sep : Char) (l : List Char) (h : sep ∉ l) :
    splitOnChar sep l = [l] := by
  induction l with
  | nil => rfl
  | cons c rest ih =>
    have hc : ¬ (c = sep) := by
      intro hcc
      subst hcc
      exact h (List.mem_cons_self _ _)
    unfold splitOnChar
    rw [if_neg hc, ih (fun hm => h (List.mem_cons_of_mem c hm))]

theorem splitOnChar_append (sep : Char) (u : List Char) (hu : sep ∉ u) (v : List Char) :
    splitOnChar sep (u ++ sep :: v) = u :: splitOnChar sep v := by
  induction u with
  | nil => simp [splitOnChar]
  | cons c rest ih =>
    have hc : ¬ (c = sep) := by
      intro hcc
      subst hcc
      exact hu (List.mem_cons_self _ _)
    have hrest : sep ∉ rest := fun hm => hu (List.mem_cons_of_mem c hm)
    simp only [List.cons_append]
    conv_lhs => unfold splitOnChar
    rw [if_neg hc, ih hrest]

theorem splitTilde_single (u p : List Char) (hu : '~' ∉ u) (hp : '~' ∉ p) :
    splitTilde (u ++ '~' :: p) = .ok (u, p) := by
  unfold splitTilde
  rw [splitOnChar_append '~' u hu p, splitOnChar_of_not_mem '~' p hp]

theorem splitTilde_double (u p q : List Char)
    (hu : '~' ∉ u) (hp : '~' ∉ p) (hq : '~' ∉ q) :
    splitTilde (u ++ '~' :: (p ++ '~' :: q)) = .error .valueError := by
  unfold splitTilde
  rw [splitOnChar_append '~' u hu, splitOnChar_append '~' p hp,
    splitOnChar_of_not_mem '~' q hq]

/-- C7 counterexample: on the version value `1.0~build3~x` the spec's
split-once reading gives upstream `1.0` and postfix `build3~x`, but the
code's `value.split("~")` yields three parts, the two-name unpacking raises
ValueError, and the whole control block fails. -/
theorem spec_C7_cex :
    splitOnFirstTildeSpec "1.0~build3~x".toList =
      some ("1.0".toList, "build3~x".toList) ∧
    splitTilde "1.0~build3~x".toList = .error .valueError ∧
    parse_key_value_block "Version: 1.0~build3~x".toList = .error .valueError :=
  ⟨rfl, rfl, rfl⟩

/-- C7 (amended): the Version value is split on every `~` and destructured
into exactly two parts: a version string `<upstream>~<postfix>` whose
upstream and postfix contain no further `~` splits into that upstream and
postfix, but a postfix containing a further `~` makes the unpacking raise
ValueError and the block fail, instead of the postfix being everything after
the first `~`. -/
theorem spec_C7 :
    (∀ u p : List Char, '~' ∉ u → '~' ∉ p →
       splitTilde (u ++ '~' :: p) = .ok (u, p)) ∧
    (∀ u p q : List Char, '~' ∉ u → '~' ∉ p → '~' ∉ q →
       splitTilde (u ++ '~' :: (p ++ '~' :: q)) = .error .valueError) :=
  ⟨splitTilde_single, splitTilde_double⟩

/-- Closed instance of C7 at a concrete upstream and postfix, via `spec_C7`. -/
theorem spec_C7_witness :
    splitTilde ("1.0".toList ++ '~' :: "build3".toList) =
      .ok ("1.0".toList, "build3".toList) :=
  spec_C7.1 "1.0".toList "build3".toList (by decide) (by decide)

theorem mapE_append_ok {α β : Type} (f : α → Except PyErr β) :
    ∀ (a : List α) (ra : List β) (b : List α) (rb : List β),
      mapE f a = .ok ra → mapE f b = .ok rb → mapE f (a ++ b) = .ok (ra ++ rb) := by
  intro a
  induction a with
  | nil =>
    intro ra b rb ha hb
    unfold mapE at ha
    injection ha with ha
    subst ha
    simpa using hb
  | cons x xs ih =>
    intro ra b rb ha hb
    unfold mapE at ha
    split at ha
    · simp at ha
    · next y heq =>
      split at ha
      · simp at ha
      · next ys heq2 =>
        injection ha with ha
        subst ha
        simp only [List.cons_append]
        unfold mapE
        rw [heq, ih ys b rb heq2 hb]

theorem parse_empty_block : parse_key_value_block [] = .ok [] := rfl

theorem filterNightly_trailing_empty :
    ∀ recs : List PyDict, isErrE (filterNightly (recs ++ [[]])) = true := by
  intro recs
  induction recs with
  | nil => rfl
  | cons x xs ih =>
    show isErrE (filterE recIsNightly ((x :: xs) ++ [[]])) = true
    simp only [List.cons_append]
    unfold filterE
    split
    · rfl
    · next b heq =>
      cases hf : filterE recIsNightly (xs ++ [[]]) with
      | error e => rfl
      | ok rest =>
        unfold filterNightly at ih
        rw [hf] at ih
        simp [isErrE] at ih

def goodBlock8 : String := "Package: a\nVersion: 1.0a1~20240101000000"

def doc8 : String := "Package: a\nVersion: 1.0a1~20240101000000\n\n"

def recordCount (r : Except PyErr (List PyDict)) : Option Nat :=
  match r with
  | .ok l => some l.length
  | .error _ => none

/-- C8 counterexample: a document with one control block followed by the
blank-line separator yields TWO parsed records (the trailing empty block
becomes an empty record, it is not skipped), and the nightly filter then
raises KeyError on that empty record, aborting the run — not one record
with no failure. -/
theorem spec_C8_cex :
    recordCount (processPackagesDoc doc8) = some 2 ∧
    Except.bind (processPackagesDoc doc8) filterNightly =
      .error (.keyError "Gecko-Version") :=
  ⟨rfl, rfl⟩

/-- C8 (amended): empty trailing blocks are not skipped: when the split of a
fetched document ends with an empty block and the preceding blocks parse,
the parse yields the preceding records plus one empty record for the
trailing block, and the subsequent nightly filter fails on the empty record
(a KeyError the run-wide handler then absorbs). -/
theorem spec_C8 (doc : String) (pre : List (List Char))
    (hsplit : splitOnNN doc.toList = pre ++ [[]])
    (hok : isOkE (mapE parse_key_value_block pre) = true) :
    okPart (processPackagesDoc doc) =
      (okPart (mapE parse_key_value_block pre)).map (fun rs => rs ++ [([] : PyDict)]) ∧
    isErrE (Except.bind (processPackagesDoc doc) filterNightly) = true := by
  cases hpre : mapE parse_key_value_block pre with
  | error e => rw [hpre] at hok; simp [isOkE] at hok
  | ok recs =>
    have hproc : processPackagesDoc doc = .ok (recs ++ [[]]) := by
      unfold processPackagesDoc
      rw [hsplit]
      exact mapE_append_ok parse_key_value_block pre recs [[]] [[]] hpre rfl
    constructor
    · rw [hproc]
      rfl
    · rw [hproc]
      show isErrE (filterNightly (recs ++ [[]])) = true
      exact filterNightly_trailing_empty recs

/-- Closed instance of C8 at `doc8`, via `spec_C8`. -/
theorem spec_C8_witness :
    isErrE (Except.bind (processPackagesDoc doc8) filterNightly) = true :=
  (spec_C8 doc8 [goodBlock8.toList] rfl rfl).2
